import Mathlib

/-!
Shallow embedding of the `etl.py` data-lake pipeline.

The source defines two procedures over Spark dataframes:

* `process_song_data` reads raw song-metadata JSON records and writes the
  `songs` dimension (projected and grouped by the full output tuple, ordered
  by `song_id`, partitioned by `year, artist_id`) and the `artists` dimension
  (grouped by the full output tuple, ordered by `artist_id`).
* `process_log_data` reads raw event JSON records, filters to rows with
  `page == 'NextSong'`, writes the `users` dimension, derives `timestamp`
  (`ts/1000`) and `datetime` (`datetime.fromtimestamp(ts/1000)`, local time)
  columns, writes the `time` dimension (partitioned by `year, month`),
  assigns `monotonically_increasing_id()` surrogate keys, left-joins the
  events against the raw song records on `song = title and artist =
  artist_name`, and writes the `songplays` fact table (partitioned by
  `year, month`).

Dataframes are embedded as Lists of structures; SQL `GROUP BY` over the full
column tuple is embedded as `List.dedup`; `ORDER BY` as an insertion sort;
the left outer join as a per-left-row flat-map that falls back to a single
null-extended row when no right row matches.  Spark's
`monotonically_increasing_id` places the partition index in the upper bits
and the record offset within the partition in the lower 33 bits, assuming
fewer than 2^33 records per partition; partitioning of the dataframe is
embedded as a positional split of the row list into chunks.  The local
timezone used by `datetime.fromtimestamp` is a parameter `tz`, the offset
from UTC in seconds at the instant being converted.
-/

/-- One raw song-metadata JSON record (the `song_data` input). -/
structure RawSongRecord where
  song_id : String
  title : String
  artist_id : String
  artist_name : String
  artist_location : String
  artist_latitude : Option ℚ
  artist_longitude : Option ℚ
  year : Int
  duration : ℚ
deriving DecidableEq, Repr

/-- One raw user-activity JSON record (the `log_data` input).
`ts` is an epoch timestamp in milliseconds. -/
structure RawEventRecord where
  userId : String
  firstName : String
  lastName : String
  gender : String
  level : String
  page : String
  ts : Int
  song : String
  artist : String
  sessionId : Int
  location : String
  userAgent : String
deriving DecidableEq, Repr

/-- A civil local date-time with millisecond precision, the value produced by
`datetime.fromtimestamp` in the `get_datetime` udf. -/
structure DateTime where
  year : Int
  month : Nat
  day : Nat
  hour : Nat
  minute : Nat
  second : Nat
  millisecond : Nat
deriving DecidableEq, Repr

/-- Days-to-civil-date conversion (proleptic Gregorian), `z` counted from the
Unix epoch 1970-01-01.  Returns `(year, month, day)`. -/
def civilFromDays (z0 : Int) : Int × Nat × Nat :=
  let z := z0 + 719468
  let era := z.fdiv 146097
  let doe := z - era * 146097
  let yoe := (doe - doe / 1460 + doe / 36524 - doe / 146096) / 365
  let y := yoe + era * 400
  let doy := doe - (365 * yoe + yoe / 4 - yoe / 100)
  let mp := (5 * doy + 2) / 153
  let d := doy - (153 * mp + 2) / 5 + 1
  let m := if mp < 10 then mp + 3 else mp - 9
  (if m ≤ 2 then y + 1 else y, m.toNat, d.toNat)

/-- Civil-date-to-days conversion, inverse direction of `civilFromDays`. -/
def daysFromCivil (y0 : Int) (m d : Nat) : Int :=
  let y := if m ≤ 2 then y0 - 1 else y0
  let era := y.fdiv 400
  let yoe := y - era * 400
  let mp : Int := if 2 < m then (m : Int) - 3 else (m : Int) + 9
  let doy := (153 * mp + 2) / 5 + (d : Int) - 1
  let doe := yoe * 365 + yoe / 4 - yoe / 100 + doy
  era * 146097 + doe - 719468

/-- Milliseconds in one day. -/
def msPerDay : Int := 86400000

/-- Model of `datetime.fromtimestamp(ms/1000)`: convert an epoch-millisecond
value to the local civil date-time for a machine whose local timezone is
`tz` seconds ahead of UTC at that instant. -/
def fromtimestampMs (tz ms : Int) : DateTime :=
  let localMs := ms + tz * 1000
  let days := localMs.fdiv msPerDay
  let msOfDay := (localMs - days * msPerDay).toNat
  let c := civilFromDays days
  { year := c.1, month := c.2.1, day := c.2.2,
    hour := msOfDay / 3600000,
    minute := msOfDay / 60000 % 60,
    second := msOfDay / 1000 % 60,
    millisecond := msOfDay % 1000 }

/-- Gregorian leap-year predicate. -/
def isLeap (y : Int) : Bool := (y % 4 == 0 && y % 100 != 0) || y % 400 == 0

/-- Month lengths of year `y`, January first. -/
def monthLengths (y : Int) : List Nat :=
  [31, if isLeap y then 29 else 28, 31, 30, 31, 30, 31, 31, 30, 31, 30, 31]

/-- One-based day of year of the civil date `(y, m, d)`. -/
def dayOfYear (y : Int) (m d : Nat) : Nat :=
  ((monthLengths y).take (m - 1)).sum + d

/-- ISO weekday of a civil date, Monday = 1 through Sunday = 7 (the Unix
epoch day 1970-01-01 was a Thursday). -/
def isoWeekdayOf (y : Int) (m d : Nat) : Nat :=
  ((daysFromCivil y m d + 3) % 7).toNat + 1

/-- Number of ISO weeks in year `y`: 53 exactly when January 1 or
December 31 of `y` is a Thursday, else 52. -/
def isoWeeksInYear (y : Int) : Nat :=
  if isoWeekdayOf y 1 1 = 4 ∨ isoWeekdayOf y 12 31 = 4 then 53 else 52

/-- Model of Spark SQL `weekofyear(...)`: the ISO-8601 week number of the
date part of a date-time. -/
def sparkWeekOfYear (dt : DateTime) : Nat :=
  let w := (10 + dayOfYear dt.year dt.month dt.day - isoWeekdayOf dt.year dt.month dt.day) / 7
  if w = 0 then isoWeeksInYear (dt.year - 1)
  else if isoWeeksInYear dt.year < w then 1 else w

/-- Model of Spark SQL `dayofweek(...)`: 1 = Sunday through 7 = Saturday. -/
def sparkDayOfWeek (dt : DateTime) : Nat :=
  ((daysFromCivil dt.year dt.month dt.day + 4) % 7).toNat + 1

/-- Code-point comparison of character lists, the binary collation used for
the SQL `ORDER BY` on string columns. -/
def charsLe : List Char → List Char → Bool
  | [], _ => true
  | _ :: _, [] => false
  | a :: as, b :: bs =>
    if a.toNat < b.toNat then true
    else if b.toNat < a.toNat then false
    else charsLe as bs

/-- Binary-collation string comparison. -/
def strLe (a b : String) : Bool := charsLe a.data b.data

/-- Row of the `songs` dimension table:
`SELECT song_id, title, artist_id, year, duration`. -/
structure SongRow where
  song_id : String
  title : String
  artist_id : String
  year : Int
  duration : ℚ
deriving DecidableEq, Repr

/-- Row of the `artists` dimension table:
`SELECT artist_id, artist_name as name, artist_location as location,
artist_latitude as latitude, artist_longitude as longitude`. -/
structure ArtistRow where
  artist_id : String
  name : String
  location : String
  latitude : Option ℚ
  longitude : Option ℚ
deriving DecidableEq, Repr

/-- Row of the `users` dimension table:
`SELECT userId as user_id, firstName as first_name, lastName as last_name,
gender, level`. -/
structure UserRow where
  user_id : String
  first_name : String
  last_name : String
  gender : String
  level : String
deriving DecidableEq, Repr

/-- Row of the `time` dimension table. -/
structure TimeRow where
  start_time : DateTime
  hour : Nat
  day : Nat
  week : Nat
  month : Nat
  year : Int
  weekday : Nat
deriving DecidableEq, Repr

/-- Projection of a raw song record onto the `songs` output columns. -/
def songProj (r : RawSongRecord) : SongRow :=
  ⟨r.song_id, r.title, r.artist_id, r.year, r.duration⟩

/-- Projection of a raw song record onto the `artists` output columns. -/
def artistProj (r : RawSongRecord) : ArtistRow :=
  ⟨r.artist_id, r.artist_name, r.artist_location, r.artist_latitude, r.artist_longitude⟩

/-- Projection of a raw event record onto the `users` output columns. -/
def userProj (e : RawEventRecord) : UserRow :=
  ⟨e.userId, e.firstName, e.lastName, e.gender, e.level⟩

/-- The `songs` table query: project, `GROUP BY` the full output tuple
(embedded as `dedup`), `ORDER BY song_id`. -/
def songsTable (srecs : List RawSongRecord) : List SongRow :=
  List.insertionSort (fun a b => strLe a.song_id b.song_id = true)
    ((srecs.map songProj).dedup)

/-- The `artists` table query: project, `GROUP BY` the full output tuple,
`ORDER BY artist_id`. -/
def artistsTable (srecs : List RawSongRecord) : List ArtistRow :=
  List.insertionSort (fun a b => strLe a.artist_id b.artist_id = true)
    ((srecs.map artistProj).dedup)

/-- The event filter `df.where(df.page == 'NextSong')`. -/
def filterEvents (evs : List RawEventRecord) : List RawEventRecord :=
  evs.filter (fun e => e.page == "NextSong")

/-- The `users` table query over the filtered events: project,
`GROUP BY` the full output tuple, `ORDER BY user_id`. -/
def usersTable (evs : List RawEventRecord) : List UserRow :=
  List.insertionSort (fun a b => strLe a.user_id b.user_id = true)
    (((filterEvents evs).map userProj).dedup)

/-- The `get_timestamp` udf, `lambda x: int(x)/1000`: epoch milliseconds to
epoch seconds by exact (Python 3 true) division. -/
def getTimestamp (x : Int) : ℚ := (x : ℚ) / 1000

/-- A filtered event row extended with the derived `timestamp` and
`datetime` columns (the dataframe `log_df`). -/
structure LogRow where
  ev : RawEventRecord
  timestamp : ℚ
  datetime : DateTime
deriving DecidableEq, Repr

/-- Build a `log_df` row from a filtered event, with an explicit derivation
function `tsCol` for the `timestamp` column; the `datetime` column is
computed directly from the raw `ts` field
(`get_datetime = udf(lambda x: datetime.fromtimestamp(int(x)/1000))`). -/
def mkLogRowWith (tsCol : Int → ℚ) (tz : Int) (e : RawEventRecord) : LogRow :=
  { ev := e, timestamp := tsCol e.ts, datetime := fromtimestampMs tz e.ts }

/-- The `log_df` rows of a run: filter, then add the derived columns. -/
def logRowsWith (tsCol : Int → ℚ) (tz : Int) (evs : List RawEventRecord) : List LogRow :=
  (filterEvents evs).map (mkLogRowWith tsCol tz)

/-- The `log_df` rows as the code derives them (`timestamp := ts/1000`). -/
def logRows (tz : Int) (evs : List RawEventRecord) : List LogRow :=
  logRowsWith getTimestamp tz evs

/-- Projection of a `log_df` row onto the `time` output columns:
`datetime, hour(datetime), day(datetime), weekofyear(datetime),
month(datetime), year(datetime), dayofweek(datetime)`. -/
def timeProj (r : LogRow) : TimeRow :=
  { start_time := r.datetime,
    hour := r.datetime.hour,
    day := r.datetime.day,
    week := sparkWeekOfYear r.datetime,
    month := r.datetime.month,
    year := r.datetime.year,
    weekday := sparkDayOfWeek r.datetime }

/-- Monotone integer encoding of a date-time, giving the `ORDER BY
start_time` comparison. -/
def dtKey (d : DateTime) : Int :=
  (((((d.year * 13 + d.month) * 32 + d.day) * 24 + d.hour) * 60 + d.minute) * 60
      + d.second) * 1000 + d.millisecond

/-- The `time` table query over given `log_df` rows: project, `GROUP BY`
the full output tuple, `ORDER BY start_time`. -/
def timeTableOf (rows : List LogRow) : List TimeRow :=
  List.insertionSort (fun a b => dtKey a.start_time ≤ dtKey b.start_time)
    ((rows.map timeProj).dedup)

/-- The `time` table of a run. -/
def timeTable (tz : Int) (evs : List RawEventRecord) : List TimeRow :=
  timeTableOf (logRows tz evs)

/-- Spark `monotonically_increasing_id()`: partition index in the upper
bits, record offset within the partition in the lower 33 bits. -/
def monotonicallyIncreasingId (partIdx offset : Nat) : Nat :=
  partIdx * 2 ^ 33 + offset

/-- A `log_df` row carrying its assigned `songplay_id` surrogate key. -/
structure KeyedLogRow where
  songplay_id : Nat
  row : LogRow
deriving DecidableEq, Repr

/-- Assign surrogate keys to the rows of partition `p`, offsets from `i`. -/
def idRows (p : Nat) : Nat → List LogRow → List KeyedLogRow
  | _, [] => []
  | i, r :: rs => ⟨monotonicallyIncreasingId p i, r⟩ :: idRows p (i + 1) rs

/-- Assign surrogate keys partition by partition, starting at partition
index `p`. -/
def withSongplayIds : Nat → List (List LogRow) → List (List KeyedLogRow)
  | _, [] => []
  | p, rows :: rest => idRows p 0 rows :: withSongplayIds (p + 1) rest

/-- Positional split of a row list into partitions of the given sizes
(the physical partitioning of the dataframe, independent of row content). -/
def splitChunks : List Nat → List LogRow → List (List LogRow)
  | [], _ => []
  | n :: ns, l => l.take n :: splitChunks ns (l.drop n)

/-- The surrogate-keyed `logs` rows of a run, for partition sizes `sizes`. -/
def keyedLogRowsWith (tsCol : Int → ℚ) (tz : Int) (sizes : List Nat)
    (evs : List RawEventRecord) : List KeyedLogRow :=
  (withSongplayIds 0 (splitChunks sizes (logRowsWith tsCol tz evs))).flatten

/-- Row of the `songplays` fact table. -/
structure SongplayRow where
  songplay_id : Nat
  start_time : DateTime
  user_id : String
  level : String
  song_id : Option String
  artist_id : Option String
  session_id : Int
  location : String
  user_agent : String
  year : Int
  month : Nat
deriving DecidableEq, Repr

/-- The raw song records matching one event row under the join predicate
`l.song = s.title and l.artist = s.artist_name`. -/
def songMatches (l : LogRow) (srecs : List RawSongRecord) : List RawSongRecord :=
  srecs.filter (fun s => l.ev.song == s.title && l.ev.artist == s.artist_name)

/-- Build one `songplays` row from a keyed event row and the (possibly
null) joined `song_id` and `artist_id`; `year` and `month` come from the
event's own `datetime`. -/
def mkSongplay (k : KeyedLogRow) (sid aid : Option String) : SongplayRow :=
  { songplay_id := k.songplay_id,
    start_time := k.row.datetime,
    user_id := k.row.ev.userId,
    level := k.row.ev.level,
    song_id := sid,
    artist_id := aid,
    session_id := k.row.ev.sessionId,
    location := k.row.ev.location,
    user_agent := k.row.ev.userAgent,
    year := k.row.datetime.year,
    month := k.row.datetime.month }

/-- The fact rows one keyed event contributes under the left outer join:
one row per matching song record, or a single row with null `song_id`
and `artist_id` when no song matches. -/
def songplayRowsFor (k : KeyedLogRow) (srecs : List RawSongRecord) : List SongplayRow :=
  match songMatches k.row srecs with
  | [] => [mkSongplay k none none]
  | ms => ms.map (fun s => mkSongplay k (some s.song_id) (some s.artist_id))

/-- The `songplays` table query: left outer join of the keyed event rows
against the raw song records. -/
def songplaysTable (keyed : List KeyedLogRow) (srecs : List RawSongRecord) :
    List SongplayRow :=
  keyed.flatMap (fun k => songplayRowsFor k srecs)

/-- The `songplays` table of a run. -/
def songplaysTableOf (tsCol : Int → ℚ) (tz : Int) (sizes : List Nat)
    (evs : List RawEventRecord) (srecs : List RawSongRecord) : List SongplayRow :=
  songplaysTable (keyedLogRowsWith tsCol tz sizes evs) srecs

/-- A partitioned write: group the rows by their partition-key values; each
distinct key value becomes one partition holding exactly the rows with
that key. -/
def partitionBy {ρ κ : Type} [DecidableEq ρ] [DecidableEq κ] (key : ρ → κ)
    (rows : List ρ) : List (κ × List ρ) :=
  ((rows.map key).dedup).map (fun k => (k, rows.filter (fun r => key r == k)))

/-- The five written tables of one full run (`main`), with the `timestamp`
column derivation `tsCol` explicit. -/
structure RunOutput where
  songs : List SongRow
  artists : List ArtistRow
  users : List UserRow
  time : List TimeRow
  songplays : List SongplayRow
deriving DecidableEq, Repr

/-- One full run of the pipeline with an explicit `timestamp`-column
derivation: `process_song_data` then `process_log_data`. -/
def runAllWith (tsCol : Int → ℚ) (tz : Int) (sizes : List Nat)
    (srecs : List RawSongRecord) (evs : List RawEventRecord) : RunOutput :=
  { songs := songsTable srecs,
    artists := artistsTable srecs,
    users := usersTable evs,
    time := timeTableOf (logRowsWith tsCol tz evs),
    songplays := songplaysTableOf tsCol tz sizes evs srecs }

/-- One full run of the pipeline as the code derives it. -/
def runAll (tz : Int) (sizes : List Nat) (srecs : List RawSongRecord)
    (evs : List RawEventRecord) : RunOutput :=
  runAllWith getTimestamp tz sizes srecs evs

/-- Modelled from the spec: leap-year test of the independent standard
date-library computation (century years are leap only when divisible by 400). -/
def specIsLeap (y : Int) : Bool :=
  if y % 100 == 0 then y % 400 == 0 else y % 4 == 0

/-- Modelled from the spec: length in days of year `y` for the independent
computation. -/
def specYearLen (y : Int) : Nat := if specIsLeap y then 366 else 365

/-- Modelled from the spec: split a day count since 1970-01-01 into a year
and a zero-based day of year by walking whole years upward; `fuel` bounds
the recursion. -/
def specSplitYear : Nat → Int → Nat → Int × Nat
  | 0, y, d => (y, d)
  | fuel + 1, y, d =>
    if d < specYearLen y then (y, d) else specSplitYear fuel (y + 1) (d - specYearLen y)

/-- Modelled from the spec: month-length table of year `y` for the
independent computation. -/
def specMonthLens (y : Int) : List Nat :=
  [31, if specIsLeap y then 29 else 28, 31, 30, 31, 30, 31, 31, 30, 31, 30, 31]

/-- Modelled from the spec: split a zero-based day of year into a one-based
`(month, day)` pair by walking the month-length table. -/
def specSplitMonth : List Nat → Nat → Nat × Nat
  | [], d => (1, d + 1)
  | len :: rest, d =>
    if d < len then (1, d + 1)
    else
      let r := specSplitMonth rest (d - len)
      (r.1 + 1, r.2)

/-- Modelled from the spec: weekday by Zeller's congruence, mapped to the
1 = Sunday through 7 = Saturday convention. -/
def specZellerSun1 (y0 : Int) (m0 d : Nat) : Nat :=
  let y : Int := if m0 ≤ 2 then y0 - 1 else y0
  let m : Int := if m0 ≤ 2 then (m0 : Int) + 12 else (m0 : Int)
  let K := y % 100
  let J := y.fdiv 100
  let h := ((d : Int) + (13 * (m + 1)) / 5 + K + K / 4 + J / 4 + 5 * J) % 7
  ((h + 6) % 7).toNat + 1

/-- Modelled from the spec: ISO-8601 week number computed from the Thursday
of the week containing the given epoch-day count (ISO week 1 is the week of
the year's first Thursday, so the Thursday's own year and day-of-year fix
the week number). -/
def specIsoWeek (days : Int) : Nat :=
  let thursday := days - (days + 3) % 7 + 3
  let dn := thursday.toNat
  let yd := specSplitYear (dn + 1) 1970 dn
  yd.2 / 7 + 1

/-- The time fields of the independent computation, in the order
hour, day, week, month, year, weekday. -/
structure SpecTime where
  hour : Nat
  day : Nat
  week : Nat
  month : Nat
  year : Int
  weekday : Nat
deriving DecidableEq, Repr

/-- Modelled from the spec: the independent standard date-library
computation of the Time fields for the epoch-millisecond instant `ms` in a
timezone `tz` seconds ahead of UTC, built from algorithms different from
the pipeline's embedding (year walking, month-table walking, Zeller's
congruence, Thursday-of-the-week ISO week). -/
def specTimeFields (tz ms : Int) : SpecTime :=
  let localMs := ms + tz * 1000
  let days := localMs.fdiv msPerDay
  let secOfDay := (localMs.fdiv 1000 - days * 86400).toNat
  let dn := days.toNat
  let yd := specSplitYear (dn + 1) 1970 dn
  let md := specSplitMonth (specMonthLens yd.1) yd.2
  { hour := secOfDay / 3600, day := md.2, week := specIsoWeek days,
    month := md.1, year := yd.1, weekday := specZellerSun1 yd.1 md.1 md.2 }

/-- The song record of the spec's end-to-end scenario. -/
def testSong : RawSongRecord :=
  { song_id := "S1", title := "Test Song", artist_id := "A1",
    artist_name := "Test Artist", artist_location := "", artist_latitude := none,
    artist_longitude := none, year := 2000, duration := 180 }

/-- A second song record sharing title and artist name with `testSong` but
with different identifiers (a join fan-out source). -/
def testSongDup : RawSongRecord :=
  { testSong with song_id := "S2", artist_id := "A2", year := 2005 }

/-- The event record of the spec's end-to-end scenario. -/
def testEvent : RawEventRecord :=
  { userId := "7", firstName := "Ann", lastName := "Lee", gender := "F",
    level := "free", page := "NextSong", ts := 1542241826796,
    song := "Test Song", artist := "Test Artist", sessionId := 100,
    location := "X", userAgent := "Y" }

/-- An event record of another user whose only action is not a play. -/
def testHomeEvent : RawEventRecord :=
  { testEvent with page := "Home", userId := "9" }

/-- The pipeline time fields and the independent computation agree at the
spec's probe instant `ts = 1542241826796` for timezone offset `tz`. -/
abbrev timeFieldsAgreeAt (tz : Int) : Prop :=
  (timeProj (mkLogRowWith getTimestamp tz testEvent)).hour = (specTimeFields tz 1542241826796).hour ∧
  (timeProj (mkLogRowWith getTimestamp tz testEvent)).day = (specTimeFields tz 1542241826796).day ∧
  (timeProj (mkLogRowWith getTimestamp tz testEvent)).week = (specTimeFields tz 1542241826796).week ∧
  (timeProj (mkLogRowWith getTimestamp tz testEvent)).month = (specTimeFields tz 1542241826796).month ∧
  (timeProj (mkLogRowWith getTimestamp tz testEvent)).year = (specTimeFields tz 1542241826796).year ∧
  (timeProj (mkLogRowWith getTimestamp tz testEvent)).weekday = (specTimeFields tz 1542241826796).weekday

/-- Replace the derived `timestamp` column of a `log_df` row. -/
def substTs (tsCol : Int → ℚ) (r : LogRow) : LogRow :=
  ⟨r.ev, tsCol r.ev.ts, r.datetime⟩

/-- Replace the derived `timestamp` column under a surrogate key. -/
def substK (tsCol : Int → ℚ) (k : KeyedLogRow) : KeyedLogRow :=
  ⟨k.songplay_id, substTs tsCol k.row⟩

/-- The keyed row of the end-to-end scenario, surrogate key 0, UTC. -/
def wKeyed : KeyedLogRow := ⟨0, mkLogRowWith getTimestamp 0 testEvent⟩

/-- A one-partition split holding only the scenario's event row. -/
def wParts : List (List LogRow) := [[mkLogRowWith getTimestamp 0 testEvent]]

/-- The fan-out fact row the scenario event contributes for `testSong`. -/
def wFanRow : SongplayRow := mkSongplay wKeyed (some "S1") (some "A1")

/-- The single `songs` partition of the one-song scenario. -/
def wSongPart : (Int × String) × List SongRow := ((2000, "A1"), [songProj testSong])

/-- The `users` row of the scenario event. -/
def wUser : UserRow := userProj testEvent

/-- Every fact-row list an event contributes is nonempty. -/
theorem one_le_length_songplayRowsFor (k : KeyedLogRow) (srecs : List RawSongRecord) :
    1 ≤ (songplayRowsFor k srecs).length := by
  rw [songplayRowsFor]
  split
  · simp
  · rename_i h
    simp only [List.length_map]
    rcases hm : songMatches k.row srecs with _ | ⟨a, as⟩
    · exact absurd hm h
    · simp

/-- Fields of any fact row an event contributes come from that event. -/
theorem mem_songplayRowsFor_fields (k : KeyedLogRow) (srecs : List RawSongRecord)
    (r : SongplayRow) (hr : r ∈ songplayRowsFor k srecs) :
    r.songplay_id = k.songplay_id ∧ r.start_time = k.row.datetime ∧
    r.user_id = k.row.ev.userId ∧ r.year = k.row.datetime.year ∧
    r.month = k.row.datetime.month := by
  rw [songplayRowsFor] at hr
  split at hr
  · simp only [List.mem_singleton] at hr
    subst hr
    simp [mkSongplay]
  · obtain ⟨s, hs, rfl⟩ := List.mem_map.1 hr
    simp [mkSongplay]

/-- The fact table holds at least one row per keyed event. -/
theorem length_le_length_songplaysTable (keyed : List KeyedLogRow)
    (srecs : List RawSongRecord) :
    keyed.length ≤ (songplaysTable keyed srecs).length := by
  induction keyed with
  | nil => simp [songplaysTable]
  | cons k ks ih =>
    have h1 := one_le_length_songplayRowsFor k srecs
    simp only [songplaysTable, List.flatMap_cons, List.length_append, List.length_cons] at ih ⊢
    omega

/-- C1: the left outer join gives every filtered (keyed) event at least one
fact row in the Songplay table — never zero — and an event whose song title
and artist name match no song record contributes exactly one fact row, whose
`song_id` and `artist_id` are both null. -/
theorem songplay_left_join_totality (keyed : List KeyedLogRow)
    (srecs : List RawSongRecord) (k : KeyedLogRow) (hk : k ∈ keyed) :
    keyed.length ≤ (songplaysTable keyed srecs).length ∧
    1 ≤ (songplayRowsFor k srecs).length ∧
    (∃ r ∈ songplaysTable keyed srecs,
      r.songplay_id = k.songplay_id ∧ r.start_time = k.row.datetime ∧
      r.user_id = k.row.ev.userId) ∧
    (songMatches k.row srecs = [] →
      songplayRowsFor k srecs = [mkSongplay k none none] ∧
      (mkSongplay k none none).song_id = none ∧
      (mkSongplay k none none).artist_id = none) := by
  refine ⟨length_le_length_songplaysTable keyed srecs,
    one_le_length_songplayRowsFor k srecs, ?_, ?_⟩
  · have hne : songplayRowsFor k srecs ≠ [] := by
      have := one_le_length_songplayRowsFor k srecs
      intro h
      rw [h] at this
      simp at this
    obtain ⟨r, hr⟩ := List.exists_mem_of_ne_nil _ hne
    have hf := mem_songplayRowsFor_fields k srecs r hr
    exact ⟨r, List.mem_flatMap.2 ⟨k, hk, hr⟩, hf.1, hf.2.1, hf.2.2.1⟩
  · intro h
    refine ⟨?_, rfl, rfl⟩
    rw [songplayRowsFor, h]

/-- C1 witness: the scenario event joined against no song records. -/
theorem songplay_left_join_totality_witness :
    wKeyed ∈ [wKeyed] ∧ songMatches wKeyed.row [] = [] ∧
    songplayRowsFor wKeyed [] = [mkSongplay wKeyed none none] :=
  ⟨List.mem_singleton.mpr rfl, rfl,
    ((songplay_left_join_totality [wKeyed] [] wKeyed (List.mem_singleton.mpr rfl)).2.2.2 rfl).1⟩

/-- C2: the filtered event set holds exactly the records whose `page` field
equals the string NextSong. -/
theorem filtered_set_exactly_nextsong (evs : List RawEventRecord)
    (e : RawEventRecord) :
    e ∈ filterEvents evs ↔ e ∈ evs ∧ e.page = "NextSong" := by
  simp [filterEvents, List.mem_filter]

/-- C3: each dimension table (Song, Artist, User, Time) holds exactly one
row per distinct full projected tuple: no duplicate rows, and a tuple
appears exactly when some raw record projects onto it — even when records
share a natural key but differ in another projected field. -/
theorem dimension_tables_one_row_per_tuple (srecs : List RawSongRecord)
    (evs : List RawEventRecord) (tz : Int) (s : SongRow) (a : ArtistRow)
    (u : UserRow) (t : TimeRow) :
    ((songsTable srecs).Nodup ∧ (s ∈ songsTable srecs ↔ ∃ r ∈ srecs, songProj r = s)) ∧
    ((artistsTable srecs).Nodup ∧ (a ∈ artistsTable srecs ↔ ∃ r ∈ srecs, artistProj r = a)) ∧
    ((usersTable evs).Nodup ∧ (u ∈ usersTable evs ↔ ∃ e ∈ filterEvents evs, userProj e = u)) ∧
    ((timeTable tz evs).Nodup ∧
      (t ∈ timeTable tz evs ↔ ∃ lr ∈ logRows tz evs, timeProj lr = t)) := by
  refine ⟨⟨(List.perm_insertionSort _ _).symm.nodup (List.nodup_dedup _), ?_⟩,
    ⟨(List.perm_insertionSort _ _).symm.nodup (List.nodup_dedup _), ?_⟩,
    ⟨(List.perm_insertionSort _ _).symm.nodup (List.nodup_dedup _), ?_⟩,
    ⟨(List.perm_insertionSort _ _).symm.nodup (List.nodup_dedup _), ?_⟩⟩ <;>
  simp [songsTable, artistsTable, usersTable, timeTable, timeTableOf,
    List.mem_insertionSort, List.mem_dedup, List.mem_map]

/-- Bounds on the surrogate keys of one partition. -/
theorem mem_idRows_id_bounds (p : Nat) (rows : List LogRow) (i x : Nat)
    (hx : x ∈ (idRows p i rows).map KeyedLogRow.songplay_id) :
    p * 2 ^ 33 + i ≤ x ∧ x < p * 2 ^ 33 + i + rows.length := by
  induction rows generalizing i with
  | nil => simp [idRows] at hx
  | cons r rs ih =>
    simp only [idRows, List.map_cons, List.mem_cons] at hx
    rcases hx with h | h
    · simp only [h, monotonicallyIncreasingId]
      simp
    · have := ih (i + 1) h
      simp only [List.length_cons]
      omega

/-- Surrogate keys within one partition are strictly increasing. -/
theorem pairwise_lt_idRows (p : Nat) (rows : List LogRow) (i : Nat) :
    ((idRows p i rows).map KeyedLogRow.songplay_id).Pairwise (· < ·) := by
  induction rows generalizing i with
  | nil => simp [idRows]
  | cons r rs ih =>
    simp only [idRows, List.map_cons]
    refine List.Pairwise.cons ?_ (ih (i + 1))
    intro y hy
    have := (mem_idRows_id_bounds p rs (i + 1) y hy).1
    simp only [monotonicallyIncreasingId]
    omega

/-- Surrogate keys of partitions at index `p` onward are at least
`p * 2 ^ 33`. -/
theorem mem_withSongplayIds_id_lb (parts : List (List LogRow)) (p x : Nat)
    (hx : x ∈ (withSongplayIds p parts).flatten.map KeyedLogRow.songplay_id) :
    p * 2 ^ 33 ≤ x := by
  induction parts generalizing p with
  | nil => simp [withSongplayIds] at hx
  | cons rows rest ih =>
    simp only [withSongplayIds, List.flatten_cons, List.map_append, List.mem_append] at hx
    rcases hx with h | h
    · have := (mem_idRows_id_bounds p rows 0 x h).1
      omega
    · have := ih (p + 1) h
      have h2 : p * 2 ^ 33 ≤ (p + 1) * 2 ^ 33 := by
        have : (0:Nat) < 2 ^ 33 := Nat.pos_pow_of_pos 33 (by norm_num)
        nlinarith
      omega

/-- Surrogate keys across all partitions are pairwise distinct when every
partition holds at most `2 ^ 33` rows. -/
theorem nodup_withSongplayIds_ids (parts : List (List LogRow)) (p : Nat)
    (h : ∀ part ∈ parts, part.length ≤ 2 ^ 33) :
    ((withSongplayIds p parts).flatten.map KeyedLogRow.songplay_id).Nodup := by
  induction parts generalizing p with
  | nil => simp [withSongplayIds]
  | cons rows rest ih =>
    simp only [withSongplayIds, List.flatten_cons, List.map_append]
    rw [List.nodup_append]
    refine ⟨(pairwise_lt_idRows p rows 0).imp (fun hab => ne_of_lt hab),
      ih (p + 1) (fun q hq => h q (List.mem_cons_of_mem _ hq)), ?_⟩
    intro x hx hx2
    have h1 := (mem_idRows_id_bounds p rows 0 x hx).2
    have h2 := mem_withSongplayIds_id_lb rest (p + 1) x hx2
    have h3 := h rows (List.mem_cons_self _ _)
    have h4 : (p + 1) * 2 ^ 33 = p * 2 ^ 33 + 2 ^ 33 := by ring
    omega

/-- Every partition of keyed rows is some `idRows p 0 rows`. -/
theorem mem_withSongplayIds_shape (parts : List (List LogRow)) (q : Nat)
    (kp : List KeyedLogRow) (hkp : kp ∈ withSongplayIds q parts) :
    ∃ p rows, kp = idRows p 0 rows := by
  induction parts generalizing q with
  | nil => simp [withSongplayIds] at hkp
  | cons rows rest ih =>
    simp only [withSongplayIds, List.mem_cons] at hkp
    rcases hkp with h | h
    · exact ⟨q, rows, h⟩
    · exact ih (q + 1) h

/-- C4: in one run the surrogate keys assigned to the filtered event rows
before the join are pairwise distinct (given Spark's documented bound of at
most `2 ^ 33` records per partition), and within each partition they are
strictly increasing. -/
theorem surrogate_keys_distinct_and_increasing (parts : List (List LogRow))
    (h : ∀ part ∈ parts, part.length ≤ 2 ^ 33) :
    ((withSongplayIds 0 parts).flatten.map KeyedLogRow.songplay_id).Nodup ∧
    ∀ kp ∈ withSongplayIds 0 parts,
      (kp.map KeyedLogRow.songplay_id).Pairwise (· < ·) := by
  refine ⟨nodup_withSongplayIds_ids parts 0 h, ?_⟩
  intro kp hkp
  obtain ⟨p, rows, rfl⟩ := mem_withSongplayIds_shape parts 0 kp hkp
  exact pairwise_lt_idRows p rows 0

/-- C4 witness: a single one-row partition. -/
theorem surrogate_keys_distinct_and_increasing_witness :
    (∀ part ∈ wParts, part.length ≤ 2 ^ 33) ∧
    ((withSongplayIds 0 wParts).flatten.map KeyedLogRow.songplay_id).Nodup :=
  ⟨by decide, (surrogate_keys_distinct_and_increasing wParts (by decide)).1⟩

set_option maxRecDepth 10000 in
/-- Agreement of the pipeline's time fields with the independent
computation at the probe instant, on the grid of quarter-hour timezone
offsets from UTC-14h to UTC+14h. -/
theorem timeFields_agree_on_grid :
    ∀ k ∈ List.range 113, timeFieldsAgreeAt (900 * (k : Int) - 50400) := by
  decide

/-- C5: for `ts = 1542241826796` the derived `timestamp` column equals
1542241826.796 seconds, and the hour, day, week-of-year, month, year and
weekday fields of the derived Time row equal the values the independent
standard date computation produces for the same instant and (quarter-hour
aligned) timezone. -/
theorem timestamp_derivation_correct (tz : Int) (h1 : tz % 900 = 0)
    (h2 : -50400 ≤ tz) (h3 : tz ≤ 50400) :
    getTimestamp 1542241826796 = 1542241826.796 ∧ timeFieldsAgreeAt tz := by
  refine ⟨by norm_num [getTimestamp], ?_⟩
  have hk : ((tz / 900 + 56).toNat : Int) = tz / 900 + 56 := by omega
  have hmem : (tz / 900 + 56).toNat ∈ List.range 113 := by
    rw [List.mem_range]
    omega
  have hg := timeFields_agree_on_grid _ hmem
  have heq : 900 * (((tz / 900 + 56).toNat : Nat) : Int) - 50400 = tz := by
    rw [hk]
    omega
  rwa [heq] at hg

/-- C5 witness: the UTC offset 0. -/
theorem timestamp_derivation_correct_witness :
    ((0:Int) % 900 = 0 ∧ -50400 ≤ (0:Int) ∧ (0:Int) ≤ 50400) ∧
    (getTimestamp 1542241826796 = 1542241826.796 ∧ timeFieldsAgreeAt 0) :=
  ⟨⟨by decide, by decide, by decide⟩,
    timestamp_derivation_correct 0 (by decide) (by decide) (by decide)⟩

/-- Rows land only in the partition carrying their own key value. -/
theorem partitionBy_key_eq {ρ κ : Type} [DecidableEq ρ] [DecidableEq κ]
    (key : ρ → κ) (rows : List ρ) (p : κ × List ρ)
    (hp : p ∈ partitionBy key rows) (r : ρ) (hr : r ∈ p.2) : key r = p.1 := by
  obtain ⟨k, hk, rfl⟩ := List.mem_map.1 hp
  have := List.of_mem_filter hr
  simpa using this

/-- C6: every `songs` row sits in the partition of its own `year` and
`artist_id`; every `time` and `songplays` row sits in the partition of its
own `year` and `month`; and a `songplays` row's `year` and `month` come
from its event's derived local datetime, independent of any joined song. -/
theorem partition_values_match_row_fields (srecs : List RawSongRecord)
    (tz : Int) (evs : List RawEventRecord) (keyed : List KeyedLogRow) :
    (∀ p ∈ partitionBy (fun r : SongRow => (r.year, r.artist_id)) (songsTable srecs),
      ∀ r ∈ p.2, (r.year, r.artist_id) = p.1) ∧
    (∀ p ∈ partitionBy (fun r : TimeRow => (r.year, r.month)) (timeTable tz evs),
      ∀ r ∈ p.2, (r.year, r.month) = p.1) ∧
    (∀ p ∈ partitionBy (fun r : SongplayRow => (r.year, r.month)) (songplaysTable keyed srecs),
      ∀ r ∈ p.2, (r.year, r.month) = p.1) ∧
    (∀ r ∈ songplaysTable keyed srecs, ∃ k ∈ keyed,
      r.year = k.row.datetime.year ∧ r.month = k.row.datetime.month ∧
      r.start_time = k.row.datetime) := by
  refine ⟨fun p hp r hr => partitionBy_key_eq _ _ p hp r hr,
    fun p hp r hr => partitionBy_key_eq _ _ p hp r hr,
    fun p hp r hr => partitionBy_key_eq _ _ p hp r hr, ?_⟩
  intro r hr
  obtain ⟨k, hk, hrk⟩ := List.mem_flatMap.1 hr
  have hf := mem_songplayRowsFor_fields k srecs r hrk
  exact ⟨k, hk, hf.2.2.2.1, hf.2.2.2.2, hf.2.1⟩

/-- C6 witness: the one-song scenario's single partition. -/
theorem partition_values_match_row_fields_witness :
    wSongPart ∈ partitionBy (fun r : SongRow => (r.year, r.artist_id)) (songsTable [testSong]) ∧
    songProj testSong ∈ wSongPart.2 ∧
    ((songProj testSong).year, (songProj testSong).artist_id) = wSongPart.1 :=
  ⟨by decide, by decide,
    (partition_values_match_row_fields [testSong] 0 [] []).1 wSongPart (by decide)
      (songProj testSong) (by decide)⟩

/-- C7: on the spec's single-song, single-event input the run produces
exactly one Song row, one Artist row, one User row, one Time row, and one
Songplay row carrying non-null song and artist identifiers S1 and A1. -/
theorem end_to_end_scenario (tz : Int) :
    songsTable [testSong] = [songProj testSong] ∧
    artistsTable [testSong] = [artistProj testSong] ∧
    usersTable [testEvent] = [userProj testEvent] ∧
    timeTable tz [testEvent] = [timeProj (mkLogRowWith getTimestamp tz testEvent)] ∧
    (songplaysTableOf getTimestamp tz [1] [testEvent] [testSong]).map
      (fun r => (r.song_id, r.artist_id)) = [(some "S1", some "A1")] :=
  ⟨rfl, rfl, rfl, rfl, rfl⟩

/-- C8: every fact row an event contributes carries that event's surrogate
key, so an event matching two song records yields two fact rows with the
same `songplay_id` — the key is not distinct across fact rows under join
fan-out. -/
theorem join_fanout_duplicates_surrogate_key :
    (∀ (k : KeyedLogRow) (srecs : List RawSongRecord) (r : SongplayRow),
      r ∈ songplayRowsFor k srecs → r.songplay_id = k.songplay_id) ∧
    (songplaysTableOf getTimestamp 0 [1] [testEvent] [testSong, testSongDup]).map
      (fun r => r.songplay_id) = [0, 0] ∧
    ¬ ((songplaysTableOf getTimestamp 0 [1] [testEvent] [testSong, testSongDup]).map
      (fun r => r.songplay_id)).Nodup := by
  refine ⟨fun k srecs r hr => (mem_songplayRowsFor_fields k srecs r hr).1, rfl, ?_⟩
  decide

/-- C8 witness: the first fan-out row of the two-song scenario. -/
theorem join_fanout_duplicates_surrogate_key_witness :
    wFanRow ∈ songplayRowsFor wKeyed [testSong, testSongDup] ∧
    wFanRow.songplay_id = wKeyed.songplay_id :=
  ⟨by decide,
    join_fanout_duplicates_surrogate_key.1 wKeyed [testSong, testSongDup] wFanRow (by decide)⟩

/-- C9: every `users` row originates from a record with `page` NextSong; a
user none of whose records is a NextSong play contributes no row. -/
theorem users_only_from_filtered_events (evs : List RawEventRecord)
    (u : UserRow) (uid : String) (hu : u ∈ usersTable evs)
    (hall : ∀ e ∈ evs, e.userId = uid → e.page ≠ "NextSong") :
    (∃ e ∈ evs, e.page = "NextSong" ∧ userProj e = u) ∧ u.user_id ≠ uid := by
  have hmem : u ∈ (filterEvents evs).map userProj := by
    rw [usersTable, List.mem_insertionSort] at hu
    exact List.mem_dedup.1 hu
  obtain ⟨e, he, rfl⟩ := List.mem_map.1 hmem
  rw [filterEvents, List.mem_filter] at he
  have hpage : e.page = "NextSong" := by simpa using he.2
  refine ⟨⟨e, he.1, hpage, rfl⟩, ?_⟩
  intro huid
  exact hall e he.1 (by simpa [userProj] using huid) hpage

/-- C9 witness: a user whose only event is a Home page view. -/
theorem users_only_from_filtered_events_witness :
    (wUser ∈ usersTable [testEvent, testHomeEvent] ∧
      (∀ e ∈ [testEvent, testHomeEvent], e.userId = "9" → e.page ≠ "NextSong")) ∧
    wUser.user_id ≠ "9" :=
  ⟨⟨by decide, by decide⟩,
    (users_only_from_filtered_events [testEvent, testHomeEvent] wUser "9"
      (by decide) (by decide)).2⟩

/-- Changing the `timestamp` derivation only rewrites that column. -/
theorem logRowsWith_eq_map_substTs (f g : Int → ℚ) (tz : Int)
    (evs : List RawEventRecord) :
    logRowsWith f tz evs = (logRowsWith g tz evs).map (substTs f) := by
  unfold logRowsWith
  rw [List.map_map]
  rfl

/-- The `time` table ignores the `timestamp` column. -/
theorem timeTableOf_map_substTs (f : Int → ℚ) (rows : List LogRow) :
    timeTableOf (rows.map (substTs f)) = timeTableOf rows := by
  unfold timeTableOf
  rw [List.map_map]
  rfl

/-- Positional partitioning commutes with a per-row rewrite. -/
theorem splitChunks_map (sizes : List Nat) (h : LogRow → LogRow) (l : List LogRow) :
    splitChunks sizes (l.map h) = (splitChunks sizes l).map (List.map h) := by
  induction sizes generalizing l with
  | nil => rfl
  | cons n ns ih =>
    simp only [splitChunks, List.map_cons]
    rw [← List.map_take, ← List.map_drop, ih]

/-- Key assignment commutes with a `timestamp`-column rewrite. -/
theorem idRows_map_substTs (f : Int → ℚ) (p : Nat) (rows : List LogRow) (i : Nat) :
    idRows p i (rows.map (substTs f)) = (idRows p i rows).map (substK f) := by
  induction rows generalizing i with
  | nil => rfl
  | cons r rs ih =>
    simp only [List.map_cons, idRows, ih (i + 1)]
    rfl

/-- Partition-wise key assignment commutes with a `timestamp`-column
rewrite. -/
theorem withSongplayIds_map_substTs (f : Int → ℚ) (parts : List (List LogRow))
    (p : Nat) :
    withSongplayIds p (parts.map (List.map (substTs f))) =
      (withSongplayIds p parts).map (List.map (substK f)) := by
  induction parts generalizing p with
  | nil => rfl
  | cons rows rest ih =>
    simp only [List.map_cons, withSongplayIds, idRows_map_substTs, ih (p + 1)]

/-- The join ignores the `timestamp` column of the keyed event row. -/
theorem songplayRowsFor_substK (f : Int → ℚ) (k : KeyedLogRow)
    (srecs : List RawSongRecord) :
    songplayRowsFor (substK f k) srecs = songplayRowsFor k srecs := rfl

/-- The fact table ignores the `timestamp` column. -/
theorem songplaysTable_map_substK (f : Int → ℚ) (keyed : List KeyedLogRow)
    (srecs : List RawSongRecord) :
    songplaysTable (keyed.map (substK f)) srecs = songplaysTable keyed srecs := by
  unfold songplaysTable
  induction keyed with
  | nil => rfl
  | cons k ks ih =>
    simp only [List.map_cons, List.flatMap_cons, ih, songplayRowsFor_substK]

/-- C10: no written table depends on the derived epoch-seconds `timestamp`
column — the run's five outputs are identical under any two derivations of
that column (in particular, under omitting it), because the datetime the
Time and Songplay tables use is computed directly from the raw `ts`. -/
theorem written_tables_independent_of_timestamp_column (f g : Int → ℚ)
    (tz : Int) (sizes : List Nat) (srecs : List RawSongRecord)
    (evs : List RawEventRecord) :
    runAllWith f tz sizes srecs evs = runAllWith g tz sizes srecs evs := by
  unfold runAllWith songplaysTableOf keyedLogRowsWith
  rw [logRowsWith_eq_map_substTs f g tz evs, timeTableOf_map_substTs,
    splitChunks_map, withSongplayIds_map_substTs, ← List.map_flatten,
    songplaysTable_map_substK]
